import Mathlib

/- Shallow embedding of the shared utility layer of a collection of cloud
   provisioning scripts: configuration loading (scripts/common/config.py),
   output formatting and tag parsing (scripts/common/utils.py), and the
   exit-code behaviour of the S3 provisioning entry point
   (scripts/aws/provision_s3.py).  Python strings are modelled as Lean
   String, Python dicts over string keys as insertion-ordered association
   lists with unique keys. -/

/-- Python str.strip with no argument: drop whitespace from both ends. -/
def pyStrip (s : String) : String :=
  ⟨((s.data.dropWhile Char.isWhitespace).reverse.dropWhile Char.isWhitespace).reverse⟩

/-- Python str.lower restricted to ASCII case folding. -/
def pyLower (s : String) : String :=
  ⟨s.data.map Char.toLower⟩

/-- Python s.startswith for a one-character argument. -/
def startsWithChar (s : String) (c : Char) : Bool :=
  match s.data with
  | [] => false
  | d :: _ => d == c

/-- Python membership test of a character in a string. -/
def containsChar (s : String) (c : Char) : Bool :=
  s.data.contains c

/-- Python s.split (sep, 1) on the character list: the part before the
first separator and the part after it.  When the separator does not occur
the whole string is returned on the left; the sources only split after a
membership check. -/
def splitFirst (sep : Char) : List Char → List Char × List Char
  | [] => ([], [])
  | c :: cs =>
    if c == sep then ([], cs)
    else
      let r := splitFirst sep cs
      (c :: r.1, r.2)

/-- Splitting a string at the first equals sign, as a pair of strings. -/
def splitFirstEq (s : String) : String × String :=
  let r := splitFirst '=' s.data
  (⟨r.1⟩, ⟨r.2⟩)

/-- The single-quote character, written via its code point. -/
def squote : Char := Char.ofNat 39

/-- The double-quote character, written via its code point. -/
def dquote : Char := Char.ofNat 34

/-- Quote stripping in load_config: one layer of matching double or single
quotes is removed from the value (Python value[1:-1]). -/
def stripQuotes (s : String) : String :=
  if s.data.head? = some dquote ∧ s.data.getLast? = some dquote then
    ⟨(s.data.drop 1).dropLast⟩
  else if s.data.head? = some squote ∧ s.data.getLast? = some squote then
    ⟨(s.data.drop 1).dropLast⟩
  else s

/-- A Python dict with string keys and string values: an insertion-ordered
association list with unique keys. -/
abbrev Dict := List (String × String)

/-- Python assignment d[k] = v on a dict built by repeated insertion:
overwrite in place when the key is present, append otherwise. -/
def dictInsert : Dict → String → String → Dict
  | [], k, v => [(k, v)]
  | p :: rest, k, v =>
    if p.1 = k then (k, v) :: rest
    else p :: dictInsert rest k v

/-- Python d.get k: the value bound to the key, if any. -/
def dictGet (m : Dict) (k : String) : Option String :=
  match m.find? (fun p => p.1 == k) with
  | some p => some p.2
  | none => none

/- ----------------------------------------------------------------- -/
/- scripts/common/config.py                                          -/
/- ----------------------------------------------------------------- -/

/-- One line of the .env parse loop inside load_config: strip the line,
skip blank and comment lines, split the rest at the first equals sign,
strip key and value, unquote the value, and assign into the dict.  The
same assignment is mirrored into the process environment. -/
def processLine (config : Dict) (rawLine : String) : Dict :=
  let line := pyStrip rawLine
  if (line == "") || startsWithChar line '#' then config
  else if containsChar line '=' then
    let kv := splitFirstEq line
    dictInsert config (pyStrip kv.1) (stripQuotes (pyStrip kv.2))
  else config

/-- The parsing part of load_config over the lines of the located file. -/
def loadLines (lines : List String) : Dict :=
  lines.foldl processLine []

/-- A directory path: the list of components below the filesystem root.
The parent of the root is the root itself, matching Path.parent. -/
abbrev DirPath := List String

/-- Loop body of find_env_file: at each of the (at most five) steps check
whether the directory holds the .env file, stop at the root, where the
current directory equals its parent, and otherwise move to the parent. -/
def findEnvFrom (hasEnv : DirPath → Bool) : Nat → DirPath → Option DirPath
  | 0, _ => none
  | n + 1, current =>
    if hasEnv current then some current
    else if current = [] then none
    else findEnvFrom hasEnv n current.dropLast

/-- find_env_file: search the working directory and its ancestors for the
.env file, examining at most five directories in all. -/
def find_env_file (hasEnv : DirPath → Bool) (cwd : DirPath) : Option DirPath :=
  findEnvFrom hasEnv 5 cwd

/-- The FileNotFoundError message raised when no .env file is found. -/
def noEnvMsg : String :=
  "No .env file found. Please create one from .env.example:\n  cp .env.example .env\nThen fill in your credentials."

/-- load_config: locate the .env file, raising FileNotFoundError (shown as
Except.error) when it is absent, and parse its lines into the dict.  The
file system is modelled by the existence test and the line reader. -/
def load_config (hasEnv : DirPath → Bool) (readLines : DirPath → List String)
    (cwd : DirPath) : Except String Dict :=
  match find_env_file hasEnv cwd with
  | none => Except.error noEnvMsg
  | some p => Except.ok (loadLines (readLines p))

/-- The ValueError message for a required variable that is absent. -/
def missingVarMsg (key : String) : String :=
  "Required environment variable \x27" ++ key ++ "\x27 not found. Please set it in your .env file."

/-- get_env: look the key up in the environment with a default, and raise
ValueError (shown as Except.error) when required and nothing resolves. -/
def get_env (env : Dict) (key : String) (default : Option String)
    (required : Bool) : Except String (Option String) :=
  let value := (dictGet env key).or default
  if required && value.isNone then Except.error (missingVarMsg key)
  else Except.ok value

/- ----------------------------------------------------------------- -/
/- scripts/common/utils.py                                           -/
/- ----------------------------------------------------------------- -/

/-- confirm_action: strip and lowercase the one line of user input; empty
input resolves to the default, y and yes confirm, anything else declines. -/
def confirm_action (default : Bool) (input : String) : Bool :=
  let response := pyLower (pyStrip input)
  if response == "" then default
  else response == "y" || response == "yes"

/-- A display record: one row of output, an ordered mapping from column
name to an already-stringified cell value (a Python dict of strings). -/
abbrev Record := List (String × String)

/-- Python row.get (key, empty default) with the cell already a string. -/
def rowGet (row : Record) (key : String) : String :=
  match row.find? (fun p => p.1 == key) with
  | some p => p.2
  | none => ""

/-- Python str.ljust: pad on the right with spaces up to the width. -/
def ljust (s : String) (w : Nat) : String :=
  s ++ ⟨List.replicate (w - s.length) ' '⟩

/-- Python repetition of the dash character. -/
def dashes (n : Nat) : String :=
  ⟨List.replicate n '-'⟩

/-- format_table: the empty list yields the No data sentinel; otherwise
the keys of the first record are the columns, each column width is folded
up from the header length over every cell, and the output is the header,
a dashed separator joined by -+- runs, and one padded line per record. -/
def format_table : List Record → String
  | [] => "No data"
  | first :: rest =>
    let data := first :: rest
    let keys := first.map Prod.fst
    let widths : String → Nat := fun key =>
      data.foldl (fun w row => max w (rowGet row key).length) key.length
    let header := String.intercalate " | " (keys.map (fun key => ljust key (widths key)))
    let sepLine := String.intercalate "-+-" (keys.map (fun key => dashes (widths key)))
    let rows := data.map (fun row =>
      String.intercalate " | " (keys.map (fun key => ljust (rowGet row key) (widths key))))
    String.intercalate "\n" (header :: sepLine :: rows)

/-- Python repr of a plain string without special characters: the string
between single quotes. -/
def pyReprStr (s : String) : String :=
  "\x27" ++ s ++ "\x27"

/-- Python repr of a string-valued dict. -/
def pyReprRecord (r : Record) : String :=
  "\x7b" ++ String.intercalate ", " (r.map (fun p => pyReprStr p.1 ++ ": " ++ pyReprStr p.2)) ++ "\x7d"

/-- Python str of a list of dicts; str falls back to repr elementwise. -/
def pyStrListRecord (data : List Record) : String :=
  "[" ++ String.intercalate ", " (data.map pyReprRecord) ++ "]"

/-- Escaping of json.dumps for the characters used by these scripts. -/
def jsonEscape (s : String) : String :=
  ⟨s.data.foldr (fun c acc =>
    if c = dquote then '\\' :: dquote :: acc
    else if c = '\\' then '\\' :: '\\' :: acc
    else if c = '\n' then '\\' :: 'n' :: acc
    else if c = '\t' then '\\' :: 't' :: acc
    else if c = '\r' then '\\' :: 'r' :: acc
    else c :: acc) []⟩

/-- json.dumps rendering of one dict of strings at nesting depth one with
indent width two. -/
def jsonRecord (r : Record) : String :=
  if r = [] then "\x7b\x7d"
  else
    "\x7b\n"
      ++ String.intercalate ",\n" (r.map (fun p =>
            "    \"" ++ jsonEscape p.1 ++ "\": \"" ++ jsonEscape p.2 ++ "\""))
      ++ "\n  \x7d"

/-- json.dumps (data, indent 2) for a list of string-valued dicts; the
values are already strings so the default str conversion never fires. -/
def json_dumps (data : List Record) : String :=
  if data = [] then "[]"
  else
    "[\n" ++ String.intercalate ",\n" (data.map (fun r => "  " ++ jsonRecord r)) ++ "\n]"

/-- format_output: json mode serialises; table mode renders a table only
for a non-empty list of records and otherwise falls back to plain str; any
other selector is plain str.  In this typed model the input is always a
list of records, so of the three Python guards only the emptiness test can
fail. -/
def format_output (data : List Record) (output_format : String) : String :=
  if output_format == "json" then json_dumps data
  else if output_format == "table" then
    if data.length > 0 then format_table data
    else pyStrListRecord data
  else pyStrListRecord data

/-- The warning printed to stderr for a tag without an equals sign. -/
def warnMsg (tag : String) : String :=
  "Warning: Invalid tag format \x27" ++ tag ++ "\x27, expected \x27key=value\x27"

/-- Loop body of parse_tags: split a tag at the first equals sign and
assign the stripped pair, or append one warning for the diagnostic
stream. -/
def tagStep (acc : Dict × List String) (tag : String) : Dict × List String :=
  if containsChar tag '=' then
    let kv := splitFirstEq tag
    (dictInsert acc.1 (pyStrip kv.1) (pyStrip kv.2), acc.2)
  else
    (acc.1, acc.2 ++ [warnMsg tag])

/-- parse_tags: the resulting dict together with the warnings printed, in
order.  An absent tag list behaves as the empty list. -/
def parse_tags (tag_list : List String) : Dict × List String :=
  tag_list.foldl tagStep ([], [])

/- ----------------------------------------------------------------- -/
/- scripts/aws/provision_s3.py                                       -/
/- ----------------------------------------------------------------- -/

/-- Abstract outcome of one run of provision_s3.main: which branch of the
try body or which handler is reached. -/
inductive S3Outcome
  | dryRun
  | cancelled
  | created
  | noCredentials
  | clientError (code : String)
  | configNotFound
  | otherError

/-- What provision_s3.main does for each outcome: Except.error models
handle_error terminating the process from inside main, Except.ok the value
main returns, where none is the Python None of falling off the end of the
function, as happens on the two well-known ClientError codes. -/
def s3MainResult : S3Outcome → Except Nat (Option Nat)
  | S3Outcome.dryRun => Except.ok (some 0)
  | S3Outcome.cancelled => Except.ok (some 0)
  | S3Outcome.created => Except.ok (some 0)
  | S3Outcome.noCredentials => Except.ok (some 1)
  | S3Outcome.clientError code =>
    if code == "BucketAlreadyExists" then Except.ok none
    else if code == "BucketAlreadyOwnedByYou" then Except.ok none
    else Except.error 1
  | S3Outcome.configNotFound => Except.ok (some 1)
  | S3Outcome.otherError => Except.error 1

/-- Python sys.exit applied to the value returned by main: None exits
with status zero, an integer exits with that status. -/
def sysExitStatus : Option Nat → Nat
  | none => 0
  | some n => n

/-- The process exit code of one run of the provision_s3 script. -/
def s3ExitCode (o : S3Outcome) : Nat :=
  match s3MainResult o with
  | Except.error n => n
  | Except.ok r => sysExitStatus r

/- ----------------------------------------------------------------- -/
/- Specification-side definitions used to state the claims           -/
/- ----------------------------------------------------------------- -/

/-- The key a well-formed config line binds, per the parse above. -/
def keyOf (rawLine : String) : String :=
  pyStrip (splitFirstEq (pyStrip rawLine)).1

/-- The value a well-formed config line binds: the part after the first
equals sign, stripped and with one layer of matching quotes removed. -/
def valueOf (rawLine : String) : String :=
  stripQuotes (pyStrip (splitFirstEq (pyStrip rawLine)).2)

/-- A line the loader treats as a binding: non-blank after stripping, not
a comment, and containing an equals sign. -/
def isWellFormedLine (rawLine : String) : Bool :=
  let line := pyStrip rawLine
  !((line == "") || startsWithChar line '#') && containsChar line '='

/-- Maximum of a list of lengths, zero when the list is empty. -/
def listMax (l : List Nat) : Nat :=
  l.foldr max 0

/-- Column width as the specification sentence states it: the maximum of
the header length and all cell string lengths of that column. -/
def widthSpec (data : List Record) (key : String) : Nat :=
  max key.length (listMax (data.map (fun row => (rowGet row key).length)))

/-- format_table as the specification sentence describes it, with the
column width written as a maximum instead of a fold. -/
def format_table_spec : List Record → String
  | [] => "No data"
  | first :: rest =>
    let data := first :: rest
    let keys := first.map Prod.fst
    let header := String.intercalate " | " (keys.map (fun key => ljust key (widthSpec data key)))
    let sepLine := String.intercalate "-+-" (keys.map (fun key => dashes (widthSpec data key)))
    let rows := data.map (fun row =>
      String.intercalate " | " (keys.map (fun key => ljust (rowGet row key) (widthSpec data key))))
    String.intercalate "\n" (header :: sepLine :: rows)

/-- The chain from a directory up to the filesystem root, the directory
itself first. -/
def pathChain (p : DirPath) : List DirPath :=
  if h : p = [] then [[]]
  else p :: pathChain p.dropLast
termination_by p.length
decreasing_by
  simp only [List.length_dropLast]
  exact Nat.sub_lt (List.length_pos.mpr h) Nat.one_pos

/-- The directories the locator examines: the working directory and at
most its four nearest ancestors, stopping early at the root. -/
def searchDirsSpec (cwd : DirPath) : List DirPath :=
  (pathChain cwd).take 5

/- ----------------------------------------------------------------- -/
/- Helper lemmas                                                     -/
/- ----------------------------------------------------------------- -/

theorem str_beq_false (a b : String) (h : a ≠ b) : (a == b) = false := by
  cases hb : a == b with
  | true => exact absurd (eq_of_beq hb) h
  | false => rfl

theorem dictGet_cons_ne (p : String × String) (m : Dict) (k : String)
    (h : p.1 ≠ k) : dictGet (p :: m) k = dictGet m k := by
  simp [dictGet, List.find?, str_beq_false _ _ h]

theorem dictGet_cons_self (p : String × String) (m : Dict) (k : String)
    (h : p.1 = k) : dictGet (p :: m) k = some p.2 := by
  simp [dictGet, List.find?, h]

theorem dictGet_insert_self (m : Dict) (k v : String) :
    dictGet (dictInsert m k v) k = some v := by
  induction m with
  | nil => simp [dictInsert, dictGet, List.find?]
  | cons p rest ih =>
    simp only [dictInsert]
    by_cases h : p.1 = k
    · rw [if_pos h]
      simp [dictGet, List.find?]
    · rw [if_neg h, dictGet_cons_ne _ _ _ h]
      exact ih

theorem dictGet_insert_ne (m : Dict) (k k2 v : String) (hne : k ≠ k2) :
    dictGet (dictInsert m k v) k2 = dictGet m k2 := by
  induction m with
  | nil =>
    simp [dictInsert, dictGet, List.find?, str_beq_false _ _ hne]
  | cons p rest ih =>
    simp only [dictInsert]
    by_cases h : p.1 = k
    · rw [if_pos h, dictGet_cons_ne _ _ _ hne, dictGet_cons_ne _ _ _ (h ▸ hne)]
    · rw [if_neg h]
      by_cases h2 : p.1 = k2
      · rw [dictGet_cons_self _ _ _ h2, dictGet_cons_self _ _ _ h2]
      · rw [dictGet_cons_ne _ _ _ h2, dictGet_cons_ne _ _ _ h2, ih]

theorem processLine_wf (m : Dict) (l : String) (h : isWellFormedLine l = true) :
    processLine m l = dictInsert m (keyOf l) (valueOf l) := by
  simp only [isWellFormedLine, Bool.and_eq_true, Bool.not_eq_true'] at h
  obtain ⟨h1, h2⟩ := h
  simp [processLine, keyOf, valueOf, h1, h2]

theorem processLine_skip (m : Dict) (l : String) (h : isWellFormedLine l = false) :
    processLine m l = m := by
  cases hc : ((pyStrip l == "") || startsWithChar (pyStrip l) '#') with
  | true => simp [processLine, hc]
  | false =>
    have hd : containsChar (pyStrip l) '=' = false := by
      simp only [isWellFormedLine, hc] at h
      simpa using h
    simp [processLine, hc, hd]

theorem loadLines_append (xs ys : List String) :
    loadLines (xs ++ ys) = ys.foldl processLine (loadLines xs) := by
  simp [loadLines, List.foldl_append]

theorem dictGet_foldl_no_bind (post : List String) (m : Dict) (k : String)
    (h : ∀ l ∈ post, isWellFormedLine l = true → keyOf l ≠ k) :
    dictGet (post.foldl processLine m) k = dictGet m k := by
  induction post generalizing m with
  | nil => rfl
  | cons l rest ih =>
    have hl := h l (List.mem_cons_self l rest)
    have hstep : dictGet (processLine m l) k = dictGet m k := by
      cases hw : isWellFormedLine l with
      | false => rw [processLine_skip m l hw]
      | true =>
        rw [processLine_wf m l hw]
        exact dictGet_insert_ne m (keyOf l) k (valueOf l) (hl hw)
    calc dictGet ((l :: rest).foldl processLine m) k
        = dictGet (rest.foldl processLine (processLine m l)) k := rfl
      _ = dictGet (processLine m l) k :=
          ih _ (fun x hx hwx => h x (List.mem_cons_of_mem _ hx) hwx)
      _ = dictGet m k := hstep

theorem foldl_max_eq {α : Type} (f : α → Nat) (l : List α) (a : Nat) :
    l.foldl (fun w x => max w (f x)) a = max a (listMax (l.map f)) := by
  induction l generalizing a with
  | nil => simp [listMax]
  | cons x rest ih =>
    simp only [List.foldl_cons]
    rw [ih]
    simp only [listMax, List.map_cons, List.foldr_cons]
    exact max_assoc a (f x) (List.foldr max 0 (rest.map f))

theorem widths_foldl_eq (data : List Record) (key : String) :
    data.foldl (fun w row => max w (rowGet row key).length) key.length
      = widthSpec data key :=
  foldl_max_eq (fun row => (rowGet row key).length) data key.length

theorem pathChain_nil : pathChain [] = [[]] := by
  rw [pathChain]
  simp

theorem pathChain_cons (p : DirPath) (h : p ≠ []) :
    pathChain p = p :: pathChain p.dropLast := by
  rw [pathChain]
  simp [h]

theorem findEnvFrom_eq_find (hasEnv : DirPath → Bool) (n : Nat) (p : DirPath) :
    findEnvFrom hasEnv n p = ((pathChain p).take n).find? hasEnv := by
  induction n generalizing p with
  | zero => simp [findEnvFrom]
  | succ n ih =>
    by_cases hp : p = []
    · subst hp
      cases he : hasEnv [] <;>
        simp [findEnvFrom, pathChain_nil, List.find?, he]
    · rw [pathChain_cons p hp]
      cases he : hasEnv p with
      | true => simp [findEnvFrom, he, List.find?]
      | false => simp [findEnvFrom, he, List.find?, hp, ih]

theorem string_mk_eq_empty_iff (cs : List Char) : (⟨cs⟩ : String) = "" ↔ cs = [] := by
  constructor
  · intro h
    have h2 := congrArg String.data h
    simpa using h2
  · intro h
    rw [h]

theorem pyLower_eq_empty_iff (s : String) : pyLower s = "" ↔ s = "" := by
  obtain ⟨cs⟩ := s
  rw [pyLower]
  simp only [string_mk_eq_empty_iff, List.map_eq_nil_iff]

theorem parse_tags_fold (ts : List String) (acc : Dict × List String) :
    ts.foldl tagStep acc =
      ((ts.filter (fun t => containsChar t '=')).foldl
          (fun m t => dictInsert m (pyStrip (splitFirstEq t).1) (pyStrip (splitFirstEq t).2)) acc.1,
        acc.2 ++ (ts.filter (fun t => !(containsChar t '='))).map warnMsg) := by
  induction ts generalizing acc with
  | nil => simp
  | cons t rest ih =>
    cases hc : containsChar t '=' with
    | true =>
      simp only [List.foldl_cons, List.filter_cons, hc]
      rw [ih]
      simp [tagStep, hc]
    | false =>
      simp only [List.foldl_cons, List.filter_cons, hc]
      rw [ih]
      simp [tagStep, hc]

/- ----------------------------------------------------------------- -/
/- Claims                                                            -/
/- ----------------------------------------------------------------- -/

/-- C1, counterexample: the output formatter called with format selector
table and the empty list does not return the No data sentinel; the table
branch requires a non-empty list, so the call falls back to plain Python
stringification and returns the two-character string of an empty list. -/
theorem format_output_empty_table_counterexample :
    format_output ([] : List Record) "table" = "[]"
    ∧ format_output ([] : List Record) "table" ≠ "No data" := by
  constructor
  · decide
  · decide

/-- C1, amended: the table renderer format_table applied to the empty
list returns the literal string No data, while the output formatter with
selector table and an empty list falls back to plain stringification of
the list and returns the two-character string of an empty list. -/
theorem format_table_empty_no_data :
    format_table ([] : List Record) = "No data"
    ∧ format_output ([] : List Record) "table" = "[]" := by
  constructor
  · decide
  · decide

/-- C2, code evaluated at the failing input: when bucket creation raises
ClientError with one of the two well-known codes, provision_s3.main logs
the friendlier message but falls off the end of the function, returning
the Python None, and the sys.exit at the bottom of the script therefore
exits with status zero, not one; user cancellation and dry runs exit
zero, while the other handled failures exit one. -/
theorem provision_s3_exit_codes :
    s3ExitCode (S3Outcome.clientError "BucketAlreadyExists") = 0
    ∧ s3ExitCode (S3Outcome.clientError "BucketAlreadyOwnedByYou") = 0
    ∧ s3ExitCode S3Outcome.cancelled = 0
    ∧ s3ExitCode S3Outcome.dryRun = 0
    ∧ s3ExitCode S3Outcome.created = 0
    ∧ s3ExitCode S3Outcome.noCredentials = 1
    ∧ s3ExitCode (S3Outcome.clientError "AccessDenied") = 1
    ∧ s3ExitCode S3Outcome.configNotFound = 1
    ∧ s3ExitCode S3Outcome.otherError = 1 := by
  refine ⟨?_, ?_, ?_, ?_, ?_, ?_, ?_, ?_, ?_⟩ <;> decide

/-- C3: for every well-formed KEY=VALUE line of the config file that no
later line overwrites, the loader maps the stripped key to the value
obtained by splitting at the first equals sign, stripping whitespace and
removing one layer of matching quotes, exactly. -/
theorem load_config_wellformed_line (pre post : List String) (l : String)
    (hwf : isWellFormedLine l = true)
    (hpost : ∀ l2 ∈ post, isWellFormedLine l2 = true → keyOf l2 ≠ keyOf l) :
    dictGet (loadLines (pre ++ l :: post)) (keyOf l) = some (valueOf l) := by
  have h1 : loadLines (pre ++ l :: post)
      = post.foldl processLine (processLine (loadLines pre) l) := by
    rw [loadLines_append]
    rfl
  rw [h1, dictGet_foldl_no_bind post _ _ hpost, processLine_wf _ _ hwf,
    dictGet_insert_self]

/-- C3, witness: a file with a comment, two other bindings and a quoted
binding for KEY loads KEY to the stripped, unquoted value. -/
theorem load_config_wellformed_line_witness :
    dictGet (loadLines (["# note", "A=1"] ++ "KEY = \x27hello\x27" :: ["B=2"]))
        (keyOf "KEY = \x27hello\x27") = some (valueOf "KEY = \x27hello\x27")
    ∧ keyOf "KEY = \x27hello\x27" = "KEY"
    ∧ valueOf "KEY = \x27hello\x27" = "hello" :=
  ⟨load_config_wellformed_line ["# note", "A=1"] ["B=2"] "KEY = \x27hello\x27"
      (by decide) (by decide),
    by decide, by decide⟩

/-- C4: when the same key occurs on several lines of the file, the loaded
mapping binds it to the value of the last occurrence: parsing folds the
lines in order and each later binding overwrites the earlier one. -/
theorem load_config_last_wins (pre : List String) (l1 l2 : String)
    (hmem : l1 ∈ pre) (hwf1 : isWellFormedLine l1 = true)
    (hwf2 : isWellFormedLine l2 = true) (hkey : keyOf l1 = keyOf l2) :
    dictGet (loadLines (pre ++ [l2])) (keyOf l2) = some (valueOf l2) := by
  rw [loadLines_append]
  show dictGet (processLine (loadLines pre) l2) (keyOf l2) = some (valueOf l2)
  rw [processLine_wf _ _ hwf2, dictGet_insert_self]

/-- C4, witness: a file binding K twice loads K to the later value. -/
theorem load_config_last_wins_witness :
    dictGet (loadLines (["K=1"] ++ ["K=2"])) (keyOf "K=2") = some (valueOf "K=2")
    ∧ valueOf "K=2" = "2" :=
  ⟨load_config_last_wins ["K=1"] "K=1" "K=2" (by decide) (by decide)
      (by decide) (by decide),
    by decide⟩

/-- C5: get_env raises the missing-variable error exactly when required
is set, the key has no value in the environment and no default was
supplied; when a default is supplied and the key is absent it returns the
default, even when required is set. -/
theorem get_env_required_default (env : Dict) (key : String)
    (default : Option String) (required : Bool) :
    (get_env env key default required = Except.error (missingVarMsg key)
      ↔ (required = true ∧ dictGet env key = none ∧ default = none))
    ∧ (∀ d, default = some d → dictGet env key = none →
        get_env env key default required = Except.ok (some d)) := by
  refine ⟨?_, ?_⟩
  · cases hr : required <;> cases hg : dictGet env key <;> cases hd : default <;>
      simp [get_env, hg, hd, Option.or]
  · intro d hd hg
    cases hr : required <;> simp [get_env, hg, hd, Option.or]

/-- C5, witness: with an empty environment and no default the error is
raised, and with a default the default is returned even when required. -/
theorem get_env_required_default_witness :
    get_env [] "K" none true = Except.error (missingVarMsg "K")
    ∧ get_env [] "K" (some "d") true = Except.ok (some "d") :=
  ⟨(get_env_required_default [] "K" none true).1.mpr ⟨rfl, by decide, rfl⟩,
    (get_env_required_default [] "K" (some "d") true).2 "d" rfl (by decide)⟩

/-- C6: for every non-empty list of display records, format_table agrees
with the specification rendering: columns are the keys of the first
record, each column width is the maximum of the header length and all
cell string lengths of that column, and the output is the header row, a
separator of dash runs joined by -+-, then one row per record with every
cell padded to its column width and cells joined by a pipe with spaces;
keys missing in later records render as the empty string through the
empty-default cell lookup both renderings share. -/
theorem format_table_matches_spec (first : Record) (rest : List Record) :
    format_table (first :: rest) = format_table_spec (first :: rest) := by
  simp only [format_table, format_table_spec, widths_foldl_eq]

/-- C7: tag parsing splits each entry at the first equals sign into a
stripped key-value pair inserted last-wins into the mapping; the entries
with no equals sign are exactly the ones skipped, each producing one
warning on the diagnostic stream, in order; in particular the example
list with one bad entry yields the two good pairs and one warning. -/
theorem parse_tags_spec (ts : List String) :
    (parse_tags ts).2 = (ts.filter (fun t => !(containsChar t '='))).map warnMsg
    ∧ (parse_tags ts).1 = (ts.filter (fun t => containsChar t '=')).foldl
        (fun m t => dictInsert m (pyStrip (splitFirstEq t).1) (pyStrip (splitFirstEq t).2)) []
    ∧ parse_tags ["k1=v1", "bad", "k2=v2"]
        = ([("k1", "v1"), ("k2", "v2")], [warnMsg "bad"]) := by
  refine ⟨?_, ?_, ?_⟩
  · rw [parse_tags, parse_tags_fold]
    simp
  · rw [parse_tags, parse_tags_fold]
  · decide

/-- C8: the confirmation prompt returns the caller-supplied default when
the stripped input is empty, returns true when the stripped input is a
case-insensitive y or yes regardless of the default, and returns false
for any other input. -/
theorem confirm_action_spec (default : Bool) (input : String) :
    (pyStrip input = "" → confirm_action default input = default)
    ∧ (pyLower (pyStrip input) = "y" ∨ pyLower (pyStrip input) = "yes" →
        confirm_action default input = true)
    ∧ (pyStrip input ≠ "" → pyLower (pyStrip input) ≠ "y" →
        pyLower (pyStrip input) ≠ "yes" → confirm_action default input = false) := by
  refine ⟨?_, ?_, ?_⟩
  · intro h
    simp only [confirm_action]
    rw [h]
    rw [if_pos (by decide)]
  · intro h
    simp only [confirm_action]
    rcases h with h | h <;> rw [h, if_neg (by decide)] <;> decide
  · intro h1 h2 h3
    simp only [confirm_action]
    have hcond : ¬((pyLower (pyStrip input) == "") = true) := by
      intro hb
      exact h1 ((pyLower_eq_empty_iff _).mp (eq_of_beq hb))
    rw [if_neg hcond, str_beq_false _ _ h2, str_beq_false _ _ h3]
    rfl

/-- C8, witness: empty input returns the default false, the input y
returns true even though the default is false, and another word returns
false even though the default is true. -/
theorem confirm_action_spec_witness :
    confirm_action false "" = false
    ∧ confirm_action false "y" = true
    ∧ confirm_action true "maybe" = false :=
  ⟨(confirm_action_spec false "").1 (by decide),
    (confirm_action_spec false "y").2.1 (Or.inl (by decide)),
    (confirm_action_spec true "maybe").2.2 (by decide) (by decide) (by decide)⟩

/-- C9: the locator examines exactly the chain consisting of the working
directory and at most its four nearest ancestors, truncated at the
filesystem root, returning the first directory of that chain containing
the fixed filename; the chain has at most five directories; and when the
locator signals not-found, load_config raises the fatal file-not-found
error. -/
theorem find_env_file_search (hasEnv : DirPath → Bool) (cwd : DirPath) :
    find_env_file hasEnv cwd = (searchDirsSpec cwd).find? hasEnv
    ∧ (searchDirsSpec cwd).length ≤ 5
    ∧ (∀ readLines : DirPath → List String,
        find_env_file hasEnv cwd = none →
        load_config hasEnv readLines cwd = Except.error noEnvMsg) := by
  refine ⟨?_, ?_, ?_⟩
  · exact findEnvFrom_eq_find hasEnv 5 cwd
  · rw [searchDirsSpec]
    exact List.length_take_le 5 (pathChain cwd)
  · intro readLines h
    simp [load_config, h]

/-- C9, witness: from a directory three levels deep the first ancestor
holding the file is found, and when nothing holds the file the loader
raises the fatal error. -/
theorem find_env_file_search_witness :
    find_env_file (fun p => p == ["home"]) ["home", "user", "proj"]
        = List.find? (fun p => p == ["home"]) (searchDirsSpec ["home", "user", "proj"])
    ∧ load_config (fun _ => false) (fun _ => []) ["a", "b"] = Except.error noEnvMsg :=
  ⟨(find_env_file_search (fun p => p == ["home"]) ["home", "user", "proj"]).1,
    (find_env_file_search (fun _ => false) ["a", "b"]).2.2 (fun _ => []) (by decide)⟩

/-- C10: the loader is total over arbitrary file text: a non-blank,
non-comment line containing no equals sign is silently skipped, adding no
mapping entry and raising no error, so removing it from the file leaves
the loaded configuration unchanged (and, unlike tag parsing, load_config
prints no warning: it has no output stream at all). -/
theorem load_config_skips_lines_without_eq (pre post : List String) (l : String)
    (hne : (pyStrip l == "") = false)
    (hnc : startsWithChar (pyStrip l) '#' = false)
    (hnoeq : containsChar (pyStrip l) '=' = false) :
    loadLines (pre ++ l :: post) = loadLines (pre ++ post) := by
  have hw : isWellFormedLine l = false := by
    simp [isWellFormedLine, hne, hnc, hnoeq]
  rw [loadLines_append, loadLines_append]
  show post.foldl processLine (processLine (loadLines pre) l)
      = post.foldl processLine (loadLines pre)
  rw [processLine_skip _ _ hw]

/-- C10, witness: a malformed line between two bindings adds nothing. -/
theorem load_config_skips_lines_without_eq_witness :
    loadLines (["A=1"] ++ "garbage" :: ["B=2"]) = loadLines (["A=1"] ++ ["B=2"]) :=
  load_config_skips_lines_without_eq ["A=1"] ["B=2"] "garbage"
    (by decide) (by decide) (by decide)
